import Mathlib

/-!
Verification development for the trading-bot backend.

Shallow embedding of the components the specification's testable
properties concern:

* `DatabaseClient` (the resilient variant in `src/database/client.ts`):
  health flag, bounded FIFO pending queue, reconnection and replay,
  modelled as a small-step event machine over an explicit state record.
* `PolymarketWebSocket` (`src/polymarket/websocket.ts`): tracked asset-id
  set, per-asset book cache, pending data-readiness waiters.
* `RebalancingEngine` (`src/strategy/RebalancingEngine.ts`) and the
  settlement arithmetic of `TradingBot.closePosition`
  (`src/core/TradingBot.ts`).
* `BinanceWebSocketDataProvider` (`src/data/WebSocketDataProvider.ts`):
  nearest-sample lookup and safe percent-change derivation.
* The two observed `parseMarketEndTime` slug decoders
  (`src/core/TradingBot.ts` and the alternative coordinator variant).

JavaScript `number` values are modelled as exact rationals (`ℚ`) where
the code manipulates prices/shares, and as `Int`/`Nat` where the code
manipulates epoch milliseconds and counts.  Promise-based control flow is
modelled by explicit event interleavings at the `await` points of the
source.
-/

namespace TradingBot

/-! ## DurableStore: `DatabaseClient` of src/database/client.ts (resilient variant)

State of the client.  `pendingQueue` holds the ids of queued operations in
arrival order (`PendingOp` rows of the source; the payloads are irrelevant
to the ordering claims, so operations are identified by caller-chosen
`Nat` tags).  `replayBuffer` is the snapshot taken by
`onReconnectSuccess` via `this.pendingQueue.splice(0)` that the replay
loop is currently draining.  `trace` records ids in the order the backend
executes them; `enqueued` and `replayed` are history variables recording,
respectively, every id ever accepted into the queue and every id replayed
from it, both in order. -/

structure DBState where
  isHealthy : Bool
  shuttingDown : Bool
  maxPendingQueueSize : Nat
  pendingQueue : List Nat
  replayBuffer : List Nat
  trace : List Nat
  enqueued : List Nat
  replayed : List Nat
deriving DecidableEq, Repr

/-- Initial state of the client: healthy, queue capacity 5000
(`maxPendingQueueSize` in the source). -/
def dbInit : DBState :=
  { isHealthy := true, shuttingDown := false, maxPendingQueueSize := 5000,
    pendingQueue := [], replayBuffer := [], trace := [], enqueued := [], replayed := [] }

inductive SubmitResult
  | executed
  | queued
  | rejectedFull
  | rejectedShutdown
deriving DecidableEq, Repr

/-- The `catch` branch of `query`/`transaction`: an execution failure
while healthy sets `isHealthy = false` before falling through to the
queueing logic. -/
def markUnhealthy (s : DBState) : DBState :=
  if s.isHealthy then { s with isHealthy := false } else s

@[simp] theorem markUnhealthy_shuttingDown (s : DBState) :
    (markUnhealthy s).shuttingDown = s.shuttingDown := by
  unfold markUnhealthy; split <;> rfl

@[simp] theorem markUnhealthy_maxPendingQueueSize (s : DBState) :
    (markUnhealthy s).maxPendingQueueSize = s.maxPendingQueueSize := by
  unfold markUnhealthy; split <;> rfl

@[simp] theorem markUnhealthy_pendingQueue (s : DBState) :
    (markUnhealthy s).pendingQueue = s.pendingQueue := by
  unfold markUnhealthy; split <;> rfl

@[simp] theorem markUnhealthy_replayBuffer (s : DBState) :
    (markUnhealthy s).replayBuffer = s.replayBuffer := by
  unfold markUnhealthy; split <;> rfl

@[simp] theorem markUnhealthy_trace (s : DBState) :
    (markUnhealthy s).trace = s.trace := by
  unfold markUnhealthy; split <;> rfl

@[simp] theorem markUnhealthy_enqueued (s : DBState) :
    (markUnhealthy s).enqueued = s.enqueued := by
  unfold markUnhealthy; split <;> rfl

@[simp] theorem markUnhealthy_replayed (s : DBState) :
    (markUnhealthy s).replayed = s.replayed := by
  unfold markUnhealthy; split <;> rfl

/-- One call to `DatabaseClient.query` / `DatabaseClient.transaction`
(source lines: the public `query` and `transaction` APIs).  `execFails`
says whether the immediate execution attempted while healthy would fail
(the `catch` branch that marks the client unhealthy and falls through to
the queueing logic). -/
def submitOp (s : DBState) (op : Nat) (execFails : Bool) : DBState × SubmitResult :=
  if s.shuttingDown then
    (s, .rejectedShutdown)
  else if s.isHealthy && !execFails then
    ({ s with trace := s.trace ++ [op] }, .executed)
  else if (markUnhealthy s).maxPendingQueueSize ≤ (markUnhealthy s).pendingQueue.length then
    (markUnhealthy s, .rejectedFull)
  else
    ({ markUnhealthy s with
        pendingQueue := (markUnhealthy s).pendingQueue ++ [op],
        enqueued := (markUnhealthy s).enqueued ++ [op] }, .queued)

/-- Events of the client, at the granularity of the source's `await`
points:

* `submit op execFails` — a caller invokes `query`/`transaction`;
* `probeFail` — the periodic health check fails (`isHealthy = false`);
* `recoverySuccess` — a reconnect trial validates (`attemptReconnect`
  success path, or the health-check restore path): the source sets
  `isHealthy = true` and *then* awaits `onReconnectSuccess`, whose first
  action is `pendingQueue.splice(0)`; both are one atomic step here;
* `replayStep` — one iteration of the sequential replay loop in
  `onReconnectSuccess`. -/
inductive DBEvent
  | submit (op : Nat) (execFails : Bool)
  | probeFail
  | recoverySuccess
  | replayStep
deriving DecidableEq, Repr

def dbStep (s : DBState) : DBEvent → DBState
  | .submit op execFails => (submitOp s op execFails).1
  | .probeFail => { s with isHealthy := false }
  | .recoverySuccess =>
      { s with isHealthy := true,
               replayBuffer := s.replayBuffer ++ s.pendingQueue,
               pendingQueue := [] }
  | .replayStep =>
      match s.replayBuffer with
      | [] => s
      | a :: rest =>
          { s with replayBuffer := rest,
                   trace := s.trace ++ [a],
                   replayed := s.replayed ++ [a] }

def dbRun (s : DBState) (es : List DBEvent) : DBState := es.foldl dbStep s

/-- The FIFO bookkeeping invariant: ids ever accepted into the pending
queue are partitioned, in order, into the already-replayed ones, the ones
currently being drained, and the ones still queued. -/
def dbFifoInv (s : DBState) : Prop :=
  s.replayed ++ s.replayBuffer ++ s.pendingQueue = s.enqueued

theorem dbFifoInv_init : dbFifoInv dbInit := rfl

theorem dbFifoInv_step (s : DBState) (e : DBEvent) (h : dbFifoInv s) :
    dbFifoInv (dbStep s e) := by
  unfold dbFifoInv at h
  cases e with
  | submit op execFails =>
      simp only [dbFifoInv, dbStep, submitOp]
      split_ifs <;> simp_all
      simp [← h, List.append_assoc]
  | probeFail =>
      simp only [dbFifoInv, dbStep]
      simpa using h
  | recoverySuccess =>
      simp only [dbFifoInv, dbStep]
      simpa using h
  | replayStep =>
      simp only [dbFifoInv, dbStep]
      cases hb : s.replayBuffer with
      | nil => simpa using h
      | cons a rest =>
          rw [hb] at h
          simpa using h

theorem dbFifoInv_run (s : DBState) (es : List DBEvent) (h : dbFifoInv s) :
    dbFifoInv (dbRun s es) := by
  induction es generalizing s with
  | nil => exact h
  | cons e es ih => exact ih (dbStep s e) (dbFifoInv_step s e h)

/-- Concrete reconnect-ordering scenario of the specification: the store
fails, operations 1, 2, 3 queue during the outage, recovery begins, then
operation 4 is submitted, then the three queued operations replay. -/
def c1Events : List DBEvent :=
  [.probeFail, .submit 1 false, .submit 2 false, .submit 3 false,
   .recoverySuccess, .submit 4 false, .replayStep, .replayStep, .replayStep]

/-- C1, counterexample: operations 1, 2, 3 queue while the store is
unhealthy; recovery begins (`isHealthy` is set `true` before
`onReconnectSuccess` replays the backlog); operation 4 submitted after
recovery begins takes the healthy fast path of `query` and executes
*before* the three queued operations finish replaying, contradicting the
claim that no such operation executes before the backlog completes.  The
execution trace is `[4, 1, 2, 3]`. -/
theorem c1_admission_counterexample :
    (dbRun dbInit c1Events).trace = [4, 1, 2, 3] ∧
    List.indexOf 4 (dbRun dbInit c1Events).trace <
      List.indexOf 1 (dbRun dbInit c1Events).trace ∧
    List.indexOf 4 (dbRun dbInit c1Events).trace <
      List.indexOf 3 (dbRun dbInit c1Events).trace := by
  refine ⟨?_, ?_, ?_⟩ <;> decide

/-- C1, amended: the queued backlog is always replayed strictly in
arrival (FIFO) order — for every event interleaving, the replayed ids
followed by the ids still draining and the ids still queued equal, in
order, the full arrival-ordered history of accepted operations — but an
operation submitted after recovery begins executes immediately and may
complete before the backlog finishes replaying. -/
theorem c1_fifo_replay_order (es : List DBEvent) :
    (dbRun dbInit es).replayed ++ (dbRun dbInit es).replayBuffer ++
      (dbRun dbInit es).pendingQueue = (dbRun dbInit es).enqueued :=
  dbFifoInv_run dbInit es dbFifoInv_init

/-- Draining `n = |replayBuffer|` items appends the buffer, in order, to
the execution trace. -/
theorem dbRun_replaySteps (buf : List Nat) :
    ∀ s : DBState, s.replayBuffer = buf →
      (dbRun s (List.replicate buf.length .replayStep)).trace = s.trace ++ buf ∧
      (dbRun s (List.replicate buf.length .replayStep)).replayBuffer = [] := by
  induction buf with
  | nil =>
      intro s hs
      simp [dbRun, hs]
  | cons a rest ih =>
      intro s hs
      have hstep : dbStep s .replayStep =
          { s with replayBuffer := rest, trace := s.trace ++ [a],
                   replayed := s.replayed ++ [a] } := by
        simp only [dbStep, hs]
      have := ih (dbStep s .replayStep) (by rw [hstep])
      simp only [List.length_cons, List.replicate_succ, dbRun, List.foldl_cons] at *
      rw [hstep] at this ⊢
      simpa [List.append_assoc] using this

/-- C3: while the store is unhealthy (and not shutting down) with the
pending queue at capacity, a further `query`/`transaction` call is
rejected immediately with the queue-full error and the state — in
particular the queued backlog — is untouched; and once the store
recovers, the queued operations still replay, in order, onto the
execution trace. -/
theorem c3_queue_full_rejects_and_preserves (s : DBState) (op : Nat) (execFails : Bool)
    (hsd : s.shuttingDown = false) (hh : s.isHealthy = false)
    (hfull : s.maxPendingQueueSize ≤ s.pendingQueue.length) :
    submitOp s op execFails = (s, .rejectedFull) ∧
    (dbRun s (.recoverySuccess ::
        List.replicate (s.replayBuffer ++ s.pendingQueue).length .replayStep)).trace
      = s.trace ++ (s.replayBuffer ++ s.pendingQueue) := by
  constructor
  · unfold submitOp markUnhealthy
    rw [hsd, hh]
    simp [hfull]
  · have hstep : dbStep s .recoverySuccess =
        { s with isHealthy := true, replayBuffer := s.replayBuffer ++ s.pendingQueue,
                 pendingQueue := [] } := rfl
    have := dbRun_replaySteps (s.replayBuffer ++ s.pendingQueue)
      (dbStep s .recoverySuccess) (by rw [hstep])
    simp only [dbRun, List.foldl_cons] at *
    rw [hstep] at this ⊢
    exact this.1

/-- C3, witness: a store with capacity 2, unhealthy, holding queued
operations 1 and 2; the call submitting operation 3 is rejected with the
queue-full error while 1 and 2 later replay in order. -/
def c3State : DBState :=
  { isHealthy := false, shuttingDown := false, maxPendingQueueSize := 2,
    pendingQueue := [1, 2], replayBuffer := [], trace := [], enqueued := [1, 2],
    replayed := [] }

theorem c3_queue_full_witness :
    submitOp c3State 3 false = (c3State, .rejectedFull) ∧
    (dbRun c3State (.recoverySuccess ::
        List.replicate (c3State.replayBuffer ++ c3State.pendingQueue).length .replayStep)).trace
      = c3State.trace ++ (c3State.replayBuffer ++ c3State.pendingQueue) :=
  c3_queue_full_rejects_and_preserves c3State 3 false rfl rfl (by decide)

/-! ## OrderBookFeedClient: `PolymarketWebSocket` of src/polymarket/websocket.ts

JavaScript `Map`s (insertion-ordered, overwrite-in-place) are modelled as
association lists; the tracked `Set` of asset ids as an insertion-ordered
duplicate-free list. -/

/-- `Map.get`. -/
def lookupA {α : Type} : List (String × α) → String → Option α
  | [], _ => none
  | (k, v) :: rest, key => if k = key then some v else lookupA rest key

/-- `Map.set`: overwrite in place if the key exists, else append. -/
def insertA {α : Type} : List (String × α) → String → α → List (String × α)
  | [], key, v => [(key, v)]
  | (k, w) :: rest, key, v =>
      if k = key then (k, v) :: rest else (k, w) :: insertA rest key v

/-- `Map.delete`. -/
def eraseA {α : Type} : List (String × α) → String → List (String × α)
  | [], _ => []
  | (k, v) :: rest, key => if k = key then rest else (k, v) :: eraseA rest key

/-- `Set.add`. -/
def setAdd (l : List String) (x : String) : List String :=
  if x ∈ l then l else l ++ [x]

/-- Latest best-bid/best-ask for one asset.  The source stores the decimal
strings of the inbound frame and `parseFloat`s them on read; the parsed
values are modelled directly as rationals. -/
structure Book where
  bestBid : ℚ
  bestAsk : ℚ
deriving DecidableEq, Repr

/-- State of `PolymarketWebSocket`.  `resolvedWaiters` is a history
variable listing, in order, the waiter tags whose promise resolver has
been called. -/
structure WSState where
  wsOpen : Bool
  allSubscribedAssets : List String
  latestBookByAssetId : List (String × Book)
  pendingDataPromises : List (String × List Nat)
  resolvedWaiters : List Nat
deriving DecidableEq, Repr

/-- `subscribeToAll`: sends one message carrying the entire tracked set,
or nothing when the socket is not open or the set is empty. -/
def subscribeToAll (s : WSState) : Option (List String) :=
  if !s.wsOpen then none
  else if s.allSubscribedAssets.length = 0 then none
  else some s.allSubscribedAssets

/-- `connect(assetIds, replaceExisting)`: optionally reset the tracked
set and drop cached books not in the new set, add the ids, then (socket
open) re-subscribe with the whole set.  Returns the transmitted
subscription message, if any. -/
def wsConnect (s : WSState) (assetIds : List String) (replaceExisting : Bool) :
    WSState × Option (List String) :=
  let s1 := if replaceExisting then
      { s with allSubscribedAssets := [],
               latestBookByAssetId :=
                 s.latestBookByAssetId.filter (fun kv => kv.1 ∈ assetIds) }
    else s
  let s2 := { s1 with allSubscribedAssets := assetIds.foldl setAdd s1.allSubscribedAssets }
  if s2.wsOpen then (s2, subscribeToAll s2) else (s2, none)

/-- `unsubscribe(assetIds)`: drop the ids from the tracked set, delete
their cached books and pending waiters, then (socket open) re-subscribe
with the reduced full set. -/
def wsUnsubscribe (s : WSState) (assetIds : List String) :
    WSState × Option (List String) :=
  let s1 := { s with
      allSubscribedAssets := s.allSubscribedAssets.filter (fun id => id ∉ assetIds),
      latestBookByAssetId := s.latestBookByAssetId.filter (fun kv => kv.1 ∉ assetIds),
      pendingDataPromises := s.pendingDataPromises.filter (fun kv => kv.1 ∉ assetIds) }
  if s1.wsOpen then (s1, subscribeToAll s1) else (s1, none)

/-- The waiters currently registered for an asset id. -/
def pendingFor (s : WSState) (assetId : String) : List Nat :=
  (lookupA s.pendingDataPromises assetId).getD []

/-- Push one waiter's resolver onto the shared per-asset list. -/
def pushWaiter (m : List (String × List Nat)) (assetId : String) (w : Nat) :
    List (String × List Nat) :=
  match lookupA m assetId with
  | none => m ++ [(assetId, [w])]
  | some ws => insertA m assetId (ws ++ [w])

inductive WaitOutcome
  | alreadyAvailable
  | registered
deriving DecidableEq, Repr

/-- `waitForOrderbookData(assetId1, assetId2, timeoutMs)`: resolves
immediately when both ids have cached book data; otherwise registers one
waiter per still-uncached id (tags `w1`, `w2`) on the shared per-asset
completion lists. -/
def waitForOrderbookData (s : WSState) (assetId1 assetId2 : String) (w1 w2 : Nat) :
    WSState × WaitOutcome :=
  if (lookupA s.latestBookByAssetId assetId1).isSome &&
     (lookupA s.latestBookByAssetId assetId2).isSome then
    (s, .alreadyAvailable)
  else
    let s1 := if (lookupA s.latestBookByAssetId assetId1).isSome then s
      else { s with pendingDataPromises := pushWaiter s.pendingDataPromises assetId1 w1 }
    let s2 := if (lookupA s1.latestBookByAssetId assetId2).isSome then s1
      else { s1 with pendingDataPromises := pushWaiter s1.pendingDataPromises assetId2 w2 }
    (s2, .registered)

/-- `handleBookMessage`: store the frame's best bid/ask; if this is the
first data for the asset and waiters are pending, resolve them all and
remove the pending entry. -/
def handleBookMessage (s : WSState) (assetId : String) (book : Book) : WSState :=
  let isFirstData := (lookupA s.latestBookByAssetId assetId).isNone
  let s1 := { s with latestBookByAssetId := insertA s.latestBookByAssetId assetId book }
  if isFirstData && (lookupA s.pendingDataPromises assetId).isSome then
    { s1 with resolvedWaiters := s1.resolvedWaiters ++ pendingFor s1 assetId,
              pendingDataPromises := eraseA s1.pendingDataPromises assetId }
  else s1

theorem lookupA_insertA_self {α : Type} (m : List (String × α)) (k : String) (v : α) :
    lookupA (insertA m k v) k = some v := by
  induction m with
  | nil => simp [insertA, lookupA]
  | cons kv rest ih =>
      obtain ⟨k', v'⟩ := kv
      by_cases h : k' = k <;> simp [insertA, lookupA, h, ih]

theorem lookupA_insertA_ne {α : Type} (m : List (String × α)) (k k' : String) (v : α)
    (h : k' ≠ k) : lookupA (insertA m k v) k' = lookupA m k' := by
  induction m with
  | nil => simp [insertA, lookupA, Ne.symm h]
  | cons kv rest ih =>
      obtain ⟨k0, v0⟩ := kv
      by_cases h0 : k0 = k <;> by_cases h1 : k0 = k' <;>
        simp_all [insertA, lookupA]

theorem lookupA_append {α : Type} (m m2 : List (String × α)) (k : String) :
    lookupA (m ++ m2) k = ((lookupA m k).rec (lookupA m2 k) fun v => some v) := by
  induction m with
  | nil => simp [lookupA]
  | cons kv rest ih =>
      obtain ⟨k0, v0⟩ := kv
      by_cases h : k0 = k <;> simp [lookupA, h, ih]

theorem lookupA_eq_none_of_not_mem {α : Type} (m : List (String × α)) (k : String)
    (h : k ∉ m.map Prod.fst) : lookupA m k = none := by
  induction m with
  | nil => rfl
  | cons kv rest ih =>
      obtain ⟨k0, v0⟩ := kv
      simp only [List.map_cons, List.mem_cons] at h
      push_neg at h
      simp [lookupA, Ne.symm h.1, ih h.2]

theorem lookupA_eraseA_self {α : Type} (m : List (String × α)) (k : String)
    (h : (m.map Prod.fst).Nodup) : lookupA (eraseA m k) k = none := by
  induction m with
  | nil => rfl
  | cons kv rest ih =>
      obtain ⟨k0, v0⟩ := kv
      simp only [List.map_cons, List.nodup_cons] at h
      by_cases h0 : k0 = k
      · subst h0
        simpa [eraseA] using lookupA_eq_none_of_not_mem rest k0 h.1
      · simp [eraseA, lookupA, h0, ih h.2]

theorem lookupA_pushWaiter_self (m : List (String × List Nat)) (k : String) (w : Nat) :
    lookupA (pushWaiter m k w) k = some ((lookupA m k).getD [] ++ [w]) := by
  unfold pushWaiter
  cases hm : lookupA m k with
  | none => simp [lookupA_append, hm, lookupA]
  | some ws => simp [lookupA_insertA_self, hm]

theorem lookupA_pushWaiter_ne (m : List (String × List Nat)) (k k' : String) (w : Nat)
    (h : k' ≠ k) : lookupA (pushWaiter m k w) k' = lookupA m k' := by
  unfold pushWaiter
  cases hm : lookupA m k with
  | none =>
      simp only [lookupA_append]
      cases hk' : lookupA m k' <;> simp [lookupA, Ne.symm h]
  | some ws => simp [lookupA_insertA_ne _ _ _ _ h]

/-- C4: data-readiness barrier behaviour of `waitForOrderbookData` and
`handleBookMessage`: (i) when both requested ids already have cached book
data the wait resolves immediately without touching the state; (ii) when
an id is not yet cached, a wait registers its waiter on that id's shared
completion list; (iii) the first "book" frame for an uncached id resolves
exactly the waiters pending for that id — all of them, once — removes the
pending entry, and leaves the id cached; (iv) a frame for an already
cached id never resolves anything and never touches the pending
registry. -/
theorem c4_first_book_frame_resolves_once (s : WSState) (assetId id1 id2 : String)
    (bk bk2 : Book) (w1 w2 : Nat)
    (hnodup : (s.pendingDataPromises.map Prod.fst).Nodup) :
    ((lookupA s.latestBookByAssetId id1).isSome = true →
      (lookupA s.latestBookByAssetId id2).isSome = true →
      waitForOrderbookData s id1 id2 w1 w2 = (s, .alreadyAvailable)) ∧
    (lookupA s.latestBookByAssetId id1 = none → id1 ≠ id2 →
      pendingFor (waitForOrderbookData s id1 id2 w1 w2).1 id1 =
        pendingFor s id1 ++ [w1] ∧
      (waitForOrderbookData s id1 id2 w1 w2).2 = .registered) ∧
    (lookupA s.latestBookByAssetId assetId = none →
      (handleBookMessage s assetId bk).resolvedWaiters =
        s.resolvedWaiters ++ pendingFor s assetId ∧
      pendingFor (handleBookMessage s assetId bk) assetId = [] ∧
      (lookupA (handleBookMessage s assetId bk).latestBookByAssetId assetId).isSome = true ∧
      (handleBookMessage (handleBookMessage s assetId bk) assetId bk2).resolvedWaiters =
        (handleBookMessage s assetId bk).resolvedWaiters) ∧
    ((lookupA s.latestBookByAssetId assetId).isSome = true →
      (handleBookMessage s assetId bk).resolvedWaiters = s.resolvedWaiters ∧
      (handleBookMessage s assetId bk).pendingDataPromises = s.pendingDataPromises) := by
  refine ⟨?_, ?_, ?_, ?_⟩
  · intro h1 h2
    unfold waitForOrderbookData
    simp [h1, h2]
  · intro h1 hne
    by_cases h2 : (lookupA s.latestBookByAssetId id2).isSome = true <;>
      constructor <;>
      simp [waitForOrderbookData, h1, h2, pendingFor, lookupA_pushWaiter_self,
        lookupA_pushWaiter_ne _ _ _ _ hne]
  · intro h1
    by_cases h2 : (lookupA s.pendingDataPromises assetId).isSome = true
    · refine ⟨?_, ?_, ?_, ?_⟩ <;>
        simp [handleBookMessage, pendingFor, h1, h2,
          lookupA_eraseA_self _ _ hnodup, lookupA_insertA_self]
    · have hnone : lookupA s.pendingDataPromises assetId = none := by
        cases hl : lookupA s.pendingDataPromises assetId with
        | none => rfl
        | some ws => simp [hl] at h2
      refine ⟨?_, ?_, ?_, ?_⟩ <;>
        simp [handleBookMessage, pendingFor, h1, hnone, lookupA_insertA_self]
  · intro h1
    obtain ⟨v, hv⟩ := Option.isSome_iff_exists.mp h1
    constructor <;> simp [handleBookMessage, hv]

/-- C4, witness: asset "u" already cached, waiters 7 and 8 pending on
asset "d"; the first "book" frame for "d" resolves both waiters, empties
the pending entry, and a second frame resolves nothing further. -/
def c4State : WSState :=
  { wsOpen := true, allSubscribedAssets := ["u", "d"],
    latestBookByAssetId := [("u", ⟨1, 2⟩)],
    pendingDataPromises := [("d", [7, 8])],
    resolvedWaiters := [] }

def c4Book : Book := ⟨1, 1⟩

theorem c4_first_book_frame_witness :
    (handleBookMessage c4State "d" c4Book).resolvedWaiters =
        c4State.resolvedWaiters ++ pendingFor c4State "d" ∧
    pendingFor (handleBookMessage c4State "d" c4Book) "d" = [] ∧
    (lookupA (handleBookMessage c4State "d" c4Book).latestBookByAssetId "d").isSome = true ∧
    (handleBookMessage (handleBookMessage c4State "d" c4Book) "d" c4Book).resolvedWaiters =
        (handleBookMessage c4State "d" c4Book).resolvedWaiters :=
  (c4_first_book_frame_resolves_once c4State "d" "u" "d" c4Book c4Book 7 8
    (by decide)).2.2.1 (by decide)

theorem subscribeToAll_spec (t : WSState) (hopen : t.wsOpen = true) :
    (∀ m, subscribeToAll t = some m → m = t.allSubscribedAssets) ∧
    (subscribeToAll t = none → t.allSubscribedAssets = []) := by
  by_cases h : t.allSubscribedAssets.length = 0
  · constructor
    · intro m hm
      simp [subscribeToAll, hopen, h] at hm
    · intro _
      exact List.length_eq_zero.mp h
  · constructor
    · intro m hm
      simp [subscribeToAll, hopen, h] at hm
      exact hm.symm
    · intro hm
      simp [subscribeToAll, hopen, h] at hm

/-- C5: while the socket is open, every mutation of the tracked asset-id
set (`connect` with or without `replaceExisting`, and `unsubscribe`)
transmits, when it transmits at all, a single subscribe message carrying
exactly the entire post-mutation tracked set — never a delta; the only
case in which nothing is transmitted is the post-mutation set being
empty. -/
theorem c5_subscribe_full_set (s : WSState) (assetIds : List String)
    (replaceExisting : Bool) (hopen : s.wsOpen = true) :
    (∀ m, (wsConnect s assetIds replaceExisting).2 = some m →
        m = (wsConnect s assetIds replaceExisting).1.allSubscribedAssets) ∧
    ((wsConnect s assetIds replaceExisting).2 = none →
        (wsConnect s assetIds replaceExisting).1.allSubscribedAssets = []) ∧
    (∀ m, (wsUnsubscribe s assetIds).2 = some m →
        m = (wsUnsubscribe s assetIds).1.allSubscribedAssets) ∧
    ((wsUnsubscribe s assetIds).2 = none →
        (wsUnsubscribe s assetIds).1.allSubscribedAssets = []) := by
  have hc1 : (wsConnect s assetIds replaceExisting).1.wsOpen = true := by
    cases replaceExisting <;> simp [wsConnect, hopen]
  have hc2 : (wsConnect s assetIds replaceExisting).2 =
      subscribeToAll (wsConnect s assetIds replaceExisting).1 := by
    cases replaceExisting <;> simp [wsConnect, hopen]
  have hu1 : (wsUnsubscribe s assetIds).1.wsOpen = true := by
    simp [wsUnsubscribe, hopen]
  have hu2 : (wsUnsubscribe s assetIds).2 =
      subscribeToAll (wsUnsubscribe s assetIds).1 := by
    simp [wsUnsubscribe, hopen]
  rw [hc2, hu2]
  obtain ⟨hca, hcb⟩ := subscribeToAll_spec _ hc1
  obtain ⟨hua, hub⟩ := subscribeToAll_spec _ hu1
  exact ⟨hca, hcb, hua, hub⟩

/-- C5, witness: socket open, tracked set `["a"]`; `connect ["b"]`
transmits exactly `["a", "b"]` and `unsubscribe ["b"]` transmits exactly
the reduced full set. -/
def c5State : WSState :=
  { wsOpen := true, allSubscribedAssets := ["a"], latestBookByAssetId := [],
    pendingDataPromises := [], resolvedWaiters := [] }

theorem c5_subscribe_full_set_witness :
    (∀ m, (wsConnect c5State ["b"] false).2 = some m →
        m = (wsConnect c5State ["b"] false).1.allSubscribedAssets) ∧
    ((wsConnect c5State ["b"] false).2 = none →
        (wsConnect c5State ["b"] false).1.allSubscribedAssets = []) ∧
    (∀ m, (wsUnsubscribe c5State ["b"]).2 = some m →
        m = (wsUnsubscribe c5State ["b"]).1.allSubscribedAssets) ∧
    ((wsUnsubscribe c5State ["b"]).2 = none →
        (wsUnsubscribe c5State ["b"]).1.allSubscribedAssets = []) :=
  c5_subscribe_full_set c5State ["b"] false rfl

/-! ## RebalancingPolicy: `RebalancingEngine` of src/strategy/RebalancingEngine.ts

Prices and share counts are JavaScript numbers, modelled as rationals.
Only the fields the engine reads are carried; the human-readable `reason`
strings of the source's decision records are omitted. -/

structure OrderLevel where
  price : ℚ
  size : ℚ
deriving DecidableEq, Repr

structure OrderBookData where
  assetId : String
  bids : List OrderLevel
  asks : List OrderLevel
  bestBid : ℚ
  bestAsk : ℚ
  spread : ℚ
  mid : ℚ
deriving DecidableEq, Repr

/-- The fields of the source's `Position` record read by the rebalancing
engine and by settlement.  `upBalance`/`downBalance` are optional in the
source (`upBalance?: number`) and read through `|| 0`. -/
structure Position where
  upBalance : Option ℚ
  downBalance : Option ℚ
  shares : ℚ
  costBasis : ℚ
  hourOpenPrice : ℚ
deriving DecidableEq, Repr

/-- `x || 0` on an optional JavaScript number (both `undefined` and `0`
collapse to `0`). -/
def orZero (o : Option ℚ) : ℚ := o.getD 0

structure MarketData where
  price : ℚ
  priceChange5m : ℚ
deriving DecidableEq, Repr

inductive RebalanceAction
  | BUY_UP
  | BUY_DOWN
  | SELL_UP
  | SELL_DOWN
deriving DecidableEq, Repr

structure RebalanceDecision where
  shouldRebalance : Bool
  action : Option RebalanceAction
  shares : Option ℚ
  targetPrice : Option ℚ
  currentImbalance : ℚ
deriving DecidableEq, Repr

/-- `RebalancingEngine.evaluateUpPurchase`. -/
def evaluateUpPurchase (position : Position) (marketData : MarketData)
    (upBook : OrderBookData) (imbalance : ℚ) : RebalanceDecision :=
  let currentPrice := marketData.price
  let hourOpen := position.hourOpenPrice
  let priceMovement := ((currentPrice - hourOpen) / hourOpen) * 100
  let avgEntryPrice := position.costBasis / position.shares
  let targetPrice := max (avgEntryPrice - 3/100) (upBook.bestAsk - 2/100)
  let isPriceDropping : Bool :=
    decide (priceMovement < -(1/2)) || decide (marketData.priceChange5m < -(3/10))
  let isGoodPrice : Bool := decide (upBook.bestAsk ≤ targetPrice)
  let hasLiquidity : Bool := match upBook.asks with
    | [] => false
    | a :: _ => decide (imbalance ≤ a.size)
  if isPriceDropping && isGoodPrice && hasLiquidity then
    { shouldRebalance := true, action := some .BUY_UP, shares := some imbalance,
      targetPrice := some upBook.bestAsk, currentImbalance := imbalance }
  else if position.shares * (1/2) < imbalance ∧ upBook.bestAsk < 55/100 then
    { shouldRebalance := true, action := some .BUY_UP, shares := some imbalance,
      targetPrice := some upBook.bestAsk, currentImbalance := imbalance }
  else
    { shouldRebalance := false, action := none, shares := none,
      targetPrice := none, currentImbalance := imbalance }

/-- `RebalancingEngine.evaluateDownPurchase`. -/
def evaluateDownPurchase (position : Position) (marketData : MarketData)
    (downBook : OrderBookData) (imbalance : ℚ) : RebalanceDecision :=
  let currentPrice := marketData.price
  let hourOpen := position.hourOpenPrice
  let priceMovement := ((currentPrice - hourOpen) / hourOpen) * 100
  let avgEntryPrice := position.costBasis / position.shares
  let targetPrice := max (avgEntryPrice - 3/100) (downBook.bestAsk - 2/100)
  let isPriceRising : Bool :=
    decide (priceMovement > 1/2) || decide (marketData.priceChange5m > 3/10)
  let isGoodPrice : Bool := decide (downBook.bestAsk ≤ targetPrice)
  let hasLiquidity : Bool := match downBook.asks with
    | [] => false
    | a :: _ => decide (imbalance ≤ a.size)
  if isPriceRising && isGoodPrice && hasLiquidity then
    { shouldRebalance := true, action := some .BUY_DOWN, shares := some imbalance,
      targetPrice := some downBook.bestAsk, currentImbalance := imbalance }
  else if position.shares * (1/2) < imbalance ∧ downBook.bestAsk < 55/100 then
    { shouldRebalance := true, action := some .BUY_DOWN, shares := some imbalance,
      targetPrice := some downBook.bestAsk, currentImbalance := imbalance }
  else
    { shouldRebalance := false, action := none, shares := none,
      targetPrice := none, currentImbalance := imbalance }

/-- `RebalancingEngine.evaluateRebalancing`. -/
def evaluateRebalancing (position : Position) (marketData : MarketData)
    (upBook downBook : OrderBookData) : RebalanceDecision :=
  let upBalance := orZero position.upBalance
  let downBalance := orZero position.downBalance
  let imbalance := |upBalance - downBalance|
  if imbalance = 0 then
    { shouldRebalance := false, action := none, shares := none,
      targetPrice := none, currentImbalance := imbalance }
  else
    let needsMoreUp := upBalance < downBalance
    let needsMoreDown := downBalance < upBalance
    if needsMoreUp then evaluateUpPurchase position marketData upBook imbalance
    else if needsMoreDown then evaluateDownPurchase position marketData downBook imbalance
    else
      { shouldRebalance := false, action := none, shares := none,
        targetPrice := none, currentImbalance := imbalance }

/-- `RebalancingEngine.calculateBalancedProfit`. -/
def calculateBalancedProfit (upShares downShares avgUpPrice avgDownPrice : ℚ) : ℚ :=
  let totalShares := min upShares downShares
  let totalCost := (avgUpPrice + avgDownPrice) * totalShares
  let totalPayout := totalShares * 1
  totalPayout - totalCost

/-- Settlement arithmetic of `TradingBot.closePosition`: the payout of
the matched pairs and the pnl persisted via `updatePosition`. -/
structure CloseResult where
  balancedShares : ℚ
  totalPayout : ℚ
  pnl : ℚ
deriving DecidableEq, Repr

def closePosition (upBalance downBalance : Option ℚ) (costBasis : ℚ) : CloseResult :=
  let u := orZero upBalance
  let d := orZero downBalance
  let balancedShares := min u d
  let totalPayout := balancedShares * 1
  { balancedShares := balancedShares, totalPayout := totalPayout,
    pnl := totalPayout - costBasis }

/-- C6: settlement at window end pays `min(U, D) × 1` and persists
`pnl = payout − costBasis` (with `U = 6, D = 4, C = 9` giving payout `4`
and pnl `−5`), and the matched-pair profit helper equals
`matchedShares × 1 − (avgUpPrice + avgDownPrice) × matchedShares` with
`matchedShares = min(upShares, downShares)`. -/
theorem c6_settlement_payout_pnl (U D C up down aUp aDown : ℚ) :
    (closePosition (some U) (some D) C).totalPayout = min U D * 1 ∧
    (closePosition (some U) (some D) C).pnl = min U D * 1 - C ∧
    calculateBalancedProfit up down aUp aDown =
      min up down * 1 - (aUp + aDown) * min up down ∧
    closePosition (some 6) (some 4) 9 =
      { balancedShares := 4, totalPayout := 4, pnl := -5 } := by
  refine ⟨rfl, rfl, ?_, ?_⟩
  · unfold calculateBalancedProfit
    ring
  · unfold closePosition orZero
    norm_num

theorem evaluateUpPurchase_cases (p : Position) (m : MarketData)
    (b : OrderBookData) (i : ℚ) :
    evaluateUpPurchase p m b i =
      { shouldRebalance := true, action := some .BUY_UP, shares := some i,
        targetPrice := some b.bestAsk, currentImbalance := i } ∨
    evaluateUpPurchase p m b i =
      { shouldRebalance := false, action := none, shares := none,
        targetPrice := none, currentImbalance := i } := by
  unfold evaluateUpPurchase
  repeat' split
  all_goals simp
  all_goals (intros; exact le_or_lt _ _)

theorem evaluateDownPurchase_cases (p : Position) (m : MarketData)
    (b : OrderBookData) (i : ℚ) :
    evaluateDownPurchase p m b i =
      { shouldRebalance := true, action := some .BUY_DOWN, shares := some i,
        targetPrice := some b.bestAsk, currentImbalance := i } ∨
    evaluateDownPurchase p m b i =
      { shouldRebalance := false, action := none, shares := none,
        targetPrice := none, currentImbalance := i } := by
  unfold evaluateDownPurchase
  repeat' split
  all_goals simp
  all_goals (intros; exact le_or_lt _ _)

theorem evaluateUpPurchase_action_cases (p : Position) (m : MarketData)
    (b : OrderBookData) (i : ℚ) :
    ∀ a, (evaluateUpPurchase p m b i).action = some a → a = .BUY_UP := by
  intro a ha
  rcases evaluateUpPurchase_cases p m b i with h | h <;> rw [h] at ha <;> simp_all

theorem evaluateDownPurchase_action_cases (p : Position) (m : MarketData)
    (b : OrderBookData) (i : ℚ) :
    ∀ a, (evaluateDownPurchase p m b i).action = some a → a = .BUY_DOWN := by
  intro a ha
  rcases evaluateDownPurchase_cases p m b i with h | h <;> rw [h] at ha <;> simp_all

/-- C7: the policy computes `imbalance = |upBalance − downBalance|`; when
it is zero the decision is always a no-op, and when it is non-zero the
decision is the purchase evaluation of the side with the strictly smaller
balance (so any action it can emit buys that side and only that side). -/
theorem c7_zero_imbalance_noop_short_side (position : Position)
    (marketData : MarketData) (upBook downBook : OrderBookData) :
    (orZero position.upBalance = orZero position.downBalance →
      (evaluateRebalancing position marketData upBook downBook).shouldRebalance = false) ∧
    (orZero position.downBalance < orZero position.upBalance →
      evaluateRebalancing position marketData upBook downBook =
        evaluateDownPurchase position marketData downBook
          |orZero position.upBalance - orZero position.downBalance| ∧
      ∀ a, (evaluateRebalancing position marketData upBook downBook).action = some a →
        a = .BUY_DOWN) ∧
    (orZero position.upBalance < orZero position.downBalance →
      evaluateRebalancing position marketData upBook downBook =
        evaluateUpPurchase position marketData upBook
          |orZero position.upBalance - orZero position.downBalance| ∧
      ∀ a, (evaluateRebalancing position marketData upBook downBook).action = some a →
        a = .BUY_UP) := by
  refine ⟨?_, ?_, ?_⟩
  · intro h
    unfold evaluateRebalancing
    simp [h]
  · intro h
    have himb : ¬ |orZero position.upBalance - orZero position.downBalance| = 0 := by
      rw [abs_eq_zero, sub_eq_zero]
      exact ne_of_gt h
    have hrw : evaluateRebalancing position marketData upBook downBook =
        evaluateDownPurchase position marketData downBook
          |orZero position.upBalance - orZero position.downBalance| := by
      unfold evaluateRebalancing
      simp [himb, not_lt_of_gt h, h]
    exact ⟨hrw, by rw [hrw]; exact evaluateDownPurchase_action_cases _ _ _ _⟩
  · intro h
    have himb : ¬ |orZero position.upBalance - orZero position.downBalance| = 0 := by
      rw [abs_eq_zero, sub_eq_zero]
      exact ne_of_lt h
    have hrw : evaluateRebalancing position marketData upBook downBook =
        evaluateUpPurchase position marketData upBook
          |orZero position.upBalance - orZero position.downBalance| := by
      unfold evaluateRebalancing
      simp [himb, h]
    exact ⟨hrw, by rw [hrw]; exact evaluateUpPurchase_action_cases _ _ _ _⟩

/-- C7, witness: `upBalance = 6`, `downBalance = 4` gives imbalance 2 and
the policy evaluates a DOWN purchase. -/
def c7Position : Position :=
  { upBalance := some 6, downBalance := some 4, shares := 10, costBasis := 9,
    hourOpenPrice := 100 }

def c7MarketData : MarketData := { price := 100, priceChange5m := 0 }

def c7Book : OrderBookData :=
  { assetId := "x", bids := [], asks := [], bestBid := 45/100, bestAsk := 1/2,
    spread := 1/20, mid := 19/40 }

theorem c7_zero_imbalance_noop_short_side_witness :
    evaluateRebalancing c7Position c7MarketData c7Book c7Book =
      evaluateDownPurchase c7Position c7MarketData c7Book
        |orZero c7Position.upBalance - orZero c7Position.downBalance| ∧
    ∀ a, (evaluateRebalancing c7Position c7MarketData c7Book c7Book).action = some a →
      a = .BUY_DOWN :=
  (c7_zero_imbalance_noop_short_side c7Position c7MarketData c7Book c7Book).2.1
    (by norm_num [c7Position, orZero])

theorem evaluateUpPurchase_fires_iff (p : Position) (m : MarketData)
    (b : OrderBookData) (i : ℚ) :
    (evaluateUpPurchase p m b i).shouldRebalance = true ↔
      ((((m.price - p.hourOpenPrice) / p.hourOpenPrice) * 100 < -(1/2) ∨
          m.priceChange5m < -(3/10)) ∧
        b.bestAsk ≤ max (p.costBasis / p.shares - 3/100) (b.bestAsk - 2/100) ∧
        (∃ a rest, b.asks = a :: rest ∧ i ≤ a.size)) ∨
      (p.shares * (1/2) < i ∧ b.bestAsk < 55/100) := by
  unfold evaluateUpPurchase
  cases hasks : b.asks with
  | nil =>
      simp only [hasks]
      split_ifs <;> simp_all [decide_eq_true_iff]
  | cons a rest =>
      simp only [hasks]
      split_ifs <;> simp_all [decide_eq_true_iff]

theorem evaluateDownPurchase_fires_iff (p : Position) (m : MarketData)
    (b : OrderBookData) (i : ℚ) :
    (evaluateDownPurchase p m b i).shouldRebalance = true ↔
      ((((m.price - p.hourOpenPrice) / p.hourOpenPrice) * 100 > 1/2 ∨
          m.priceChange5m > 3/10) ∧
        b.bestAsk ≤ max (p.costBasis / p.shares - 3/100) (b.bestAsk - 2/100) ∧
        (∃ a rest, b.asks = a :: rest ∧ i ≤ a.size)) ∨
      (p.shares * (1/2) < i ∧ b.bestAsk < 55/100) := by
  unfold evaluateDownPurchase
  cases hasks : b.asks with
  | nil =>
      simp only [hasks]
      split_ifs <;> simp_all [decide_eq_true_iff]
  | cons a rest =>
      simp only [hasks]
      split_ifs <;> simp_all [decide_eq_true_iff]

/-- C8: a purchase evaluation fires exactly when either the momentum rule
holds — momentum indicates a discount on the short side (for UP: price
movement since hour open below −0.5% or 5-minute change below −0.3%; for
DOWN: the mirrored positive thresholds) AND the side's best ask is at or
below `max(averageEntryPrice − 0.03, bestAsk − 0.02)` AND the
top-of-book ask size covers the imbalance — or the aggressive rule holds:
the imbalance exceeds half the position's share count and the best ask is
below the absolute ceiling 0.55, with no momentum or liquidity
requirement. -/
theorem c8_momentum_and_aggressive_rules (position : Position) (marketData : MarketData)
    (book : OrderBookData) (imbalance : ℚ) :
    ((evaluateUpPurchase position marketData book imbalance).shouldRebalance = true ↔
      ((((marketData.price - position.hourOpenPrice) / position.hourOpenPrice) * 100 <
            -(1/2) ∨ marketData.priceChange5m < -(3/10)) ∧
        book.bestAsk ≤
          max (position.costBasis / position.shares - 3/100) (book.bestAsk - 2/100) ∧
        (∃ a rest, book.asks = a :: rest ∧ imbalance ≤ a.size)) ∨
      (position.shares * (1/2) < imbalance ∧ book.bestAsk < 55/100)) ∧
    ((evaluateDownPurchase position marketData book imbalance).shouldRebalance = true ↔
      ((((marketData.price - position.hourOpenPrice) / position.hourOpenPrice) * 100 >
            1/2 ∨ marketData.priceChange5m > 3/10) ∧
        book.bestAsk ≤
          max (position.costBasis / position.shares - 3/100) (book.bestAsk - 2/100) ∧
        (∃ a rest, book.asks = a :: rest ∧ imbalance ≤ a.size)) ∨
      (position.shares * (1/2) < imbalance ∧ book.bestAsk < 55/100)) :=
  ⟨evaluateUpPurchase_fires_iff position marketData book imbalance,
   evaluateDownPurchase_fires_iff position marketData book imbalance⟩

/-- `PolymarketClient.getOrderBook`: adapts the cached best bid/ask of an
asset into an `OrderBookData` whose single bid and ask levels carry size
`0`. -/
def getOrderBook (s : WSState) (assetId : String) : Option OrderBookData :=
  match lookupA s.latestBookByAssetId assetId with
  | none => none
  | some bookData =>
      some { assetId := assetId,
             bids := [{ price := bookData.bestBid, size := 0 }],
             asks := [{ price := bookData.bestAsk, size := 0 }],
             bestBid := bookData.bestBid, bestAsk := bookData.bestAsk,
             spread := bookData.bestAsk - bookData.bestBid,
             mid := (bookData.bestBid + bookData.bestAsk) / 2 }

/-- C10: for a cached asset, `getOrderBook` returns one bid and one ask
level, both of size `0`; hence for any positive imbalance the liquidity
condition fails and the momentum branch can never fire through this
adapter — a purchase decision can only come from the aggressive rule. -/
theorem c10_zero_size_blocks_momentum (s : WSState) (assetId : String) (bk : Book)
    (position : Position) (marketData : MarketData) (imbalance : ℚ)
    (hbk : lookupA s.latestBookByAssetId assetId = some bk)
    (himb : 0 < imbalance) :
    ∃ ob, getOrderBook s assetId = some ob ∧
      ob.bids = [{ price := bk.bestBid, size := 0 }] ∧
      ob.asks = [{ price := bk.bestAsk, size := 0 }] ∧
      ((evaluateUpPurchase position marketData ob imbalance).shouldRebalance = true →
        position.shares * (1/2) < imbalance ∧ ob.bestAsk < 55/100) ∧
      ((evaluateDownPurchase position marketData ob imbalance).shouldRebalance = true →
        position.shares * (1/2) < imbalance ∧ ob.bestAsk < 55/100) := by
  refine ⟨{ assetId := assetId, bids := [{ price := bk.bestBid, size := 0 }],
            asks := [{ price := bk.bestAsk, size := 0 }], bestBid := bk.bestBid,
            bestAsk := bk.bestAsk, spread := bk.bestAsk - bk.bestBid,
            mid := (bk.bestBid + bk.bestAsk) / 2 }, ?_, rfl, rfl, ?_, ?_⟩
  · simp [getOrderBook, hbk]
  · intro h
    rcases (evaluateUpPurchase_fires_iff _ _ _ _).mp h with
      ⟨-, -, a, rest, heq, hle⟩ | hagg
    · simp only [List.cons.injEq] at heq
      rw [← heq.1] at hle
      simp at hle
      linarith
    · exact hagg
  · intro h
    rcases (evaluateDownPurchase_fires_iff _ _ _ _).mp h with
      ⟨-, -, a, rest, heq, hle⟩ | hagg
    · simp only [List.cons.injEq] at heq
      rw [← heq.1] at hle
      simp at hle
      linarith
    · exact hagg

/-- C10, witness: cached book for asset "u" with best ask 0.5; with
imbalance 2 the adapter's zero-size book can only trigger the aggressive
rule. -/
def c10State : WSState :=
  { wsOpen := true, allSubscribedAssets := ["u"],
    latestBookByAssetId := [("u", ⟨45/100, 1/2⟩)],
    pendingDataPromises := [], resolvedWaiters := [] }

theorem c10_zero_size_blocks_momentum_witness :
    ∃ ob, getOrderBook c10State "u" = some ob ∧
      ob.bids = [{ price := (⟨45/100, 1/2⟩ : Book).bestBid, size := 0 }] ∧
      ob.asks = [{ price := (⟨45/100, 1/2⟩ : Book).bestAsk, size := 0 }] ∧
      ((evaluateUpPurchase c7Position c7MarketData ob 2).shouldRebalance = true →
        c7Position.shares * (1/2) < 2 ∧ ob.bestAsk < 55/100) ∧
      ((evaluateDownPurchase c7Position c7MarketData ob 2).shouldRebalance = true →
        c7Position.shares * (1/2) < 2 ∧ ob.bestAsk < 55/100) :=
  c10_zero_size_blocks_momentum c10State "u" ⟨45/100, 1/2⟩ c7Position c7MarketData 2
    rfl (by norm_num)

/-! ## PriceFeedClient: `BinanceWebSocketDataProvider` of src/data/WebSocketDataProvider.ts

A price history is the zipped view of the source's parallel `prices` /
`timestamps` arrays: prices as rationals, timestamps as epoch
milliseconds (`ℤ`). -/

/-- The scan loop of `getPriceAtTime`: starting from index 0 as the
current best, each later sample strictly closer to the target (in
absolute timestamp distance) becomes the new best. -/
def scanClosest (target : ℤ) : List (ℚ × ℤ) → (ℚ × ℤ) → (ℚ × ℤ)
  | [], best => best
  | pt :: rest, best =>
      if |pt.2 - target| < |best.2 - target| then scanClosest target rest pt
      else scanClosest target rest best

/-- `getPriceAtTime`: `null` on an empty history; otherwise the price of
the sample with the smallest timestamp distance to the target, accepted
only when that distance is under the 2-minute (120000 ms) tolerance. -/
def getPriceAtTime (hist : List (ℚ × ℤ)) (target : ℤ) : Option ℚ :=
  match hist with
  | [] => none
  | h :: rest =>
      let best := scanClosest target rest h
      if |best.2 - target| < 120000 then some best.1 else none

/-- The `safePct` guard of `calculateMarketData`: percent change with an
explicit zero-base guard. -/
def safePct (a b : ℚ) : ℚ := if b = 0 then 0 else ((a - b) / b) * 100

/-- The `getPriceAtTime(...) || currentPrice` fallback (JavaScript `||`:
both `null` and a `0` price fall back). -/
def orFalsy (o : Option ℚ) (fallback : ℚ) : ℚ :=
  match o with
  | none => fallback
  | some p => if p = 0 then fallback else p

/-- The `priceChangeXm` pipeline of `calculateMarketData` for one
lookback offset: compare the current price against the accepted
historical sample, falling back to the current price itself. -/
def priceChange (hist : List (ℚ × ℤ)) (now offset : ℤ) (currentPrice : ℚ) : ℚ :=
  safePct currentPrice (orFalsy (getPriceAtTime hist (now - offset)) currentPrice)

theorem scanClosest_mem (target : ℤ) (rest : List (ℚ × ℤ)) (best : (ℚ × ℤ)) :
    scanClosest target rest best = best ∨ scanClosest target rest best ∈ rest := by
  induction rest generalizing best with
  | nil => left; rfl
  | cons pt rest ih =>
      unfold scanClosest
      split
      · rcases ih pt with h | h
        · right; rw [h]; exact List.mem_cons_self pt rest
        · right; exact List.mem_cons_of_mem pt h
      · rcases ih best with h | h
        · left; exact h
        · right; exact List.mem_cons_of_mem pt h

/-- C9: when no history sample lies within the 2-minute tolerance of
`now − offset`, the nearest-sample lookup returns `null`, so the derived
`priceChangeXm` compares the current price with itself and equals 0%; and
the percent-change computation never divides by zero — a zero base price
also yields 0%. -/
theorem c9_out_of_tolerance_yields_zero (hist : List (ℚ × ℤ)) (now offset : ℤ)
    (currentPrice : ℚ)
    (htol : ∀ pt ∈ hist, 120000 ≤ |pt.2 - (now - offset)|) :
    getPriceAtTime hist (now - offset) = none ∧
    priceChange hist now offset currentPrice = 0 ∧
    ∀ a : ℚ, safePct a 0 = 0 := by
  have hnone : getPriceAtTime hist (now - offset) = none := by
    unfold getPriceAtTime
    cases hist with
    | nil => rfl
    | cons h rest =>
        have hmem : scanClosest (now - offset) rest h = h ∨
            scanClosest (now - offset) rest h ∈ rest := scanClosest_mem _ _ _
        have hge : 120000 ≤ |(scanClosest (now - offset) rest h).2 - (now - offset)| := by
          rcases hmem with hm | hm
          · rw [hm]; exact htol h (List.mem_cons_self h rest)
          · exact htol _ (List.mem_cons_of_mem h hm)
        simp only [not_lt.mpr hge, if_false]
  refine ⟨hnone, ?_, fun a => by simp [safePct]⟩
  unfold priceChange
  rw [hnone]
  by_cases hc : currentPrice = 0 <;> simp [orFalsy, safePct, hc]

/-- C9, witness: history with one sample 10 minutes older than the
15-minute lookback target — outside tolerance, so the derived change is
0%, and the zero-base guard returns 0. -/
theorem c9_out_of_tolerance_witness :
    getPriceAtTime [((100 : ℚ), (900000 : ℤ))] (2400000 - 900000) = none ∧
    priceChange [((100 : ℚ), (900000 : ℤ))] 2400000 900000 101 = 0 ∧
    ∀ a : ℚ, safePct a 0 = 0 :=
  c9_out_of_tolerance_yields_zero [((100 : ℚ), (900000 : ℤ))] 2400000 900000 101
    (by intro pt hpt; simp at hpt; subst hpt; decide)

/-! ## Window end-time decoding: the two observed `parseMarketEndTime` variants

Slugs are handled as character lists (`"…".toList`), tokens as the
segments between dashes.  Only the components handed to
`DateTime.fromObject` — month (1-based), day, and 24-hour hour — are
produced; year/minute/second are constants in the source and irrelevant
to the boundary-hour behaviour.  `parseInt` is modelled as the value of
the leading digit run (`none` standing for both `null` and `NaN`;
the two differ in the source only on malformed tokens that contain a
month/day/time marker but no leading digits, which no dash-delimited
market slug produces). -/

def monthsA : List (List Char) :=
  ["january", "february", "march", "april", "may", "june",
   "july", "august", "september", "october", "november", "december"].map String.toList

def splitOnDashAux : List Char → List Char → List (List Char)
  | [], acc => [acc.reverse]
  | c :: rest, acc =>
      if c = '-' then acc.reverse :: splitOnDashAux rest []
      else splitOnDashAux rest (c :: acc)

/-- `slug.split('-')`. -/
def splitOnDash (cs : List Char) : List (List Char) := splitOnDashAux cs []

def digitsToNat (ds : List Char) : Nat :=
  ds.foldl (fun n c => n * 10 + (c.toNat - '0'.toNat)) 0

/-- `parseInt` on a slug token: value of the leading digit run. -/
def parseIntJS (cs : List Char) : Option Nat :=
  let ds := cs.takeWhile Char.isDigit
  if ds.isEmpty then none else some (digitsToNat ds)

def endsWithAm (cs : List Char) : Bool :=
  match cs.reverse with
  | 'm' :: 'a' :: _ => true
  | _ => false

def endsWithPm (cs : List Char) : Bool :=
  match cs.reverse with
  | 'm' :: 'p' :: _ => true
  | _ => false

/-- `part.replace(/[ap]m/, '')`: delete the first occurrence of `am` or
`pm`. -/
def stripFirstAmPm : List Char → List Char
  | [] => []
  | [c] => [c]
  | a :: b :: rest =>
      if (a = 'a' ∨ a = 'p') ∧ b = 'm' then rest
      else a :: stripFirstAmPm (b :: rest)

/-- Accumulator of the token scan in `TradingBot.parseMarketEndTime`
(src/core/TradingBot.ts): month name, day from the token after the month,
hour and meridiem from the token ending in `am`/`pm`. -/
structure AccA where
  month : Option (List Char)
  day : Option Nat
  hour : Option Nat
  isPM : Bool
deriving DecidableEq, Repr

def scanA : List (List Char) → AccA → AccA
  | [], acc => acc
  | p :: rest, acc =>
      let part := p.map Char.toLower
      let acc1 :=
        if part ∈ monthsA then
          let withMonth := { acc with month := some part }
          match rest with
          | next :: _ =>
              match parseIntJS next with
              | some d => { withMonth with day := some d }
              | none => withMonth
          | [] => withMonth
        else acc
      let acc2 :=
        if endsWithAm part || endsWithPm part then
          { acc1 with isPM := endsWithPm part, hour := parseIntJS (stripFirstAmPm part) }
        else acc1
      scanA rest acc2

/-- The components handed to `DateTime.fromObject`. -/
structure EndTimeParts where
  month : Nat
  day : Nat
  hour : Int
deriving DecidableEq, Repr

/-- `TradingBot.parseMarketEndTime` of src/core/TradingBot.ts: the ad hoc
12/13/24 wraparound variant.  The end hour starts as `hour + 1` and is
patched by three special cases before the final 12-hour → 24-hour
conversion; the day is never adjusted. -/
def parseMarketEndTimeA (slug : List Char) : Option EndTimeParts :=
  let parts := splitOnDash slug
  let acc := scanA parts ⟨none, none, none, false⟩
  match acc.month, acc.day, acc.hour with
  | some m, some d, some h =>
      let endHour0 : Int := (h : Int) + 1
      let endHour1 := if endHour0 = 12 ∧ acc.isPM = false then (12 : Int) else endHour0
      let ep := if endHour1 = 13 then ((1 : Int), true) else (endHour1, acc.isPM)
      let endHour2 := ep.1
      let isPM2 := ep.2
      let endHour3 := if endHour2 = 24 then (0 : Int) else endHour2
      let monthIndex := monthsA.indexOf m
      some { month := monthIndex + 1, day := d,
             hour := endHour3 + (if isPM2 = true ∧ endHour3 ≠ 12 then (12 : Int) else 0)
                       - (if endHour3 = 12 ∧ isPM2 = false then (12 : Int) else 0) }
  | _, _, _ => none

/-- `/\d+/` on a token: first digit run anywhere. -/
def firstDigitRun : List Char → Option Nat
  | [] => none
  | c :: rest =>
      if c.isDigit then some (digitsToNat (c :: rest.takeWhile Char.isDigit))
      else firstDigitRun rest

/-- `^(\d{1,2})(st|nd|rd|th)?$` on a token. -/
def dayToken (cs : List Char) : Option Nat :=
  let ds := cs.takeWhile Char.isDigit
  let rest := cs.drop ds.length
  if (ds.length = 1 ∨ ds.length = 2) ∧
     (rest = [] ∨ rest = ['s', 't'] ∨ rest = ['n', 'd'] ∨
      rest = ['r', 'd'] ∨ rest = ['t', 'h']) then
    some (digitsToNat ds)
  else none

/-- `^(\d{1,2})(am|pm)$` on a token; `true` means `pm`. -/
def timeToken (cs : List Char) : Option (Nat × Bool) :=
  let ds := cs.takeWhile Char.isDigit
  let rest := cs.drop ds.length
  if ds.length = 1 ∨ ds.length = 2 then
    if rest = ['a', 'm'] then some (digitsToNat ds, false)
    else if rest = ['p', 'm'] then some (digitsToNat ds, true)
    else none
  else none

/-- Accumulator of the token scan in the alternative coordinator's
`parseMarketEndTime` (modular 24-hour variant). -/
structure AccB where
  monthIndex : Option Nat
  dayNum : Option Nat
  hourNum : Option Nat
  meridiem : Option Bool
deriving DecidableEq, Repr

def scanB : List (List Char) → AccB → AccB
  | [], acc => acc
  | p :: rest, acc =>
      let acc1 :=
        if p ∈ monthsA then
          let withMonth := { acc with monthIndex := some (monthsA.indexOf p) }
          match rest with
          | next :: _ =>
              match firstDigitRun next with
              | some d => { withMonth with dayNum := some d }
              | none => withMonth
          | [] => withMonth
        else acc
      let acc2 :=
        if acc1.dayNum = none then
          match dayToken p with
          | some d => { acc1 with dayNum := some d }
          | none => acc1
        else acc1
      let acc3 :=
        match timeToken p with
        | some hm => { acc2 with hourNum := some hm.1, meridiem := some hm.2 }
        | none => acc2
      scanB rest acc3

/-- The alternative coordinator's `parseMarketEndTime`: convert the start
hour to 24-hour form, add one modulo 24, and roll the day forward when
the end hour wraps to or below the start hour. -/
def parseMarketEndTimeB (slug : List Char) : Option EndTimeParts :=
  let parts := splitOnDash (slug.map Char.toLower)
  let acc := scanB parts ⟨none, none, none, none⟩
  match acc.monthIndex, acc.dayNum, acc.hourNum, acc.meridiem with
  | some mi, some d, some h, some mer =>
      let start24 : Int := ((h : Int) % 12) + (if mer then 12 else 0)
      let end24 := (start24 + 1) % 24
      let endDay := if end24 ≤ start24 then d + 1 else d
      some { month := mi + 1, day := endDay, hour := end24 }
  | _, _, _, _ => none

def slug11pm : List Char := "bitcoin-up-or-down-january-16-11pm-et".toList

def slug11am : List Char := "bitcoin-up-or-down-january-16-11am-et".toList

/-- C2: at the boundary hours the primary decoder
(src/core/TradingBot.ts) contradicts both the claim and its own inline
comments ("11pm -> 12am (midnight)", "11am -> 12pm"): an 11pm slug
decodes to hour 12 (noon) on the *same* day instead of hour 0 on the
following day, and an 11am slug decodes to hour 0 (midnight) instead of
hour 12 (noon); the alternative modular-arithmetic decoder produces
exactly the claimed boundary behaviour. -/
theorem c2_boundary_hours_divergence :
    parseMarketEndTimeA slug11pm = some { month := 1, day := 16, hour := 12 } ∧
    parseMarketEndTimeA slug11am = some { month := 1, day := 16, hour := 0 } ∧
    parseMarketEndTimeB slug11pm = some { month := 1, day := 17, hour := 0 } ∧
    parseMarketEndTimeB slug11am = some { month := 1, day := 16, hour := 12 } := by
  refine ⟨?_, ?_, ?_, ?_⟩ <;> decide

end TradingBot
